import Mathlib

/-
Verification of the farm-automation core of qq-farm-bot.

The pure core of the repository is embedded shallowly:
timestamps are natural numbers (server-clock seconds), remote-call results
are parameters, and the mutable module state of the scheduler is passed
explicitly.  Definitions keep the names of the source functions.
-/

namespace QQFarm

/-- Modelled from the spec: the growth-phase tag enumeration lives in the
configuration module (config.js), which is not among the analyzed sources.
The spec only distinguishes the MATURE and DEAD tags from the generic growing
tags, so they are represented by two fixed distinct numeric tags. -/
def PlantPhase.MATURE : Nat := 4

/-- Modelled from the spec: see PlantPhase.MATURE. -/
def PlantPhase.DEAD : Nat := 5

/-- A growth phase of a plant: a phase tag, a begin timestamp in server
seconds (0 means not yet scheduled), and the dry/weeds/insect thresholds. -/
structure Phase where
  phase : Nat
  begin_time : Nat
  dry_time : Nat
  weeds_time : Nat
  insect_time : Nat
deriving Repr, DecidableEq

/-- A phase qualifies as current when its begin timestamp is non-zero and
not in the future (the loop condition of getCurrentPhase). -/
def phaseQualifies (nowSec : Nat) (p : Phase) : Bool :=
  decide (0 < p.begin_time) && decide (p.begin_time ≤ nowSec)

/-- getCurrentPhase: scan the phase list from the end and return the first
phase whose begin time is non-zero and ≤ the server time; if none qualifies
return the first listed phase; on an empty list return nothing. -/
def getCurrentPhase (phases : List Phase) (nowSec : Nat) : Option Phase :=
  match phases with
  | [] => none
  | p0 :: _ => some ((phases.reverse.find? (phaseQualifies nowSec)).getD p0)

theorem phaseQualifies_iff (nowSec : Nat) (p : Phase) :
    phaseQualifies nowSec p = true ↔ 0 < p.begin_time ∧ p.begin_time ≤ nowSec := by
  simp [phaseQualifies]

theorem find?_reverse_eq_none {α : Type} (sat : α → Bool) (l : List α)
    (h : ∀ x ∈ l, sat x = false) : l.reverse.find? sat = none := by
  rw [List.find?_eq_none]
  intro x hx
  simp only [List.mem_reverse] at hx
  simp [h x hx]

/-- If the begin times are monotone along the list, the phase found by the
backwards scan has maximal begin time among the qualifying phases. -/
theorem find?_reverse_last_max (nowSec : Nat) (l : List Phase)
    (hmono : l.Pairwise (fun a b => a.begin_time ≤ b.begin_time)) :
    ∀ p, l.reverse.find? (phaseQualifies nowSec) = some p →
      phaseQualifies nowSec p = true ∧ p ∈ l ∧
        ∀ q ∈ l, phaseQualifies nowSec q = true → q.begin_time ≤ p.begin_time := by
  induction l with
  | nil => intro p hp; simp at hp
  | cons a t ih =>
    intro p hp
    rw [List.pairwise_cons] at hmono
    rw [List.reverse_cons, List.find?_append] at hp
    cases hfind : t.reverse.find? (phaseQualifies nowSec) with
    | some q =>
      rw [hfind] at hp
      simp only [Option.or_some, Option.some.injEq] at hp
      subst hp
      have hq := ih hmono.2 q hfind
      refine ⟨hq.1, List.mem_cons_of_mem a hq.2.1, ?_⟩
      intro r hr hrq
      rcases List.mem_cons.mp hr with h1 | h2
      · subst h1; exact hmono.1 q hq.2.1
      · exact hq.2.2 r h2 hrq
    | none =>
      rw [hfind] at hp
      simp only [Option.none_or] at hp
      have hnone : ∀ x ∈ t, phaseQualifies nowSec x = false := by
        intro x hx
        have := List.find?_eq_none.mp hfind x (by simpa using hx)
        simpa using this
      by_cases ha : phaseQualifies nowSec a = true
      · simp only [List.find?, ha] at hp
        cases hp
        refine ⟨ha, List.mem_cons_self a t, ?_⟩
        intro r hr hrq
        rcases List.mem_cons.mp hr with h1 | h2
        · subst h1; exact le_refl _
        · exact absurd hrq (by simp [hnone r h2])
      · simp only [List.find?, Bool.not_eq_true] at ha
        simp [List.find?, ha] at hp

/-- C1: among a phase list whose begin times are monotone in list order
(the data-model invariant), whenever some phase has a non-zero begin time
≤ the server time, getCurrentPhase returns a qualifying phase with maximal
begin time (the chronologically latest); when no phase qualifies it returns
the first listed phase. -/
theorem getCurrentPhase_correct (phases : List Phase) (nowSec : Nat)
    (hmono : phases.Pairwise (fun a b => a.begin_time ≤ b.begin_time)) :
    ((∃ p ∈ phases, 0 < p.begin_time ∧ p.begin_time ≤ nowSec) →
      ∃ p, getCurrentPhase phases nowSec = some p ∧ p ∈ phases ∧
        0 < p.begin_time ∧ p.begin_time ≤ nowSec ∧
        ∀ q ∈ phases, 0 < q.begin_time → q.begin_time ≤ nowSec →
          q.begin_time ≤ p.begin_time)
    ∧ ((∀ p ∈ phases, ¬(0 < p.begin_time ∧ p.begin_time ≤ nowSec)) →
        getCurrentPhase phases nowSec = phases.head?) := by
  constructor
  · rintro ⟨p, hp, hq⟩
    cases phases with
    | nil => simp at hp
    | cons a t =>
      cases hfind : (a :: t).reverse.find? (phaseQualifies nowSec) with
      | none =>
        exfalso
        have := List.find?_eq_none.mp hfind p (List.mem_reverse.mpr hp)
        rw [phaseQualifies_iff] at this
        exact this hq
      | some r =>
        have hr := find?_reverse_last_max nowSec (a :: t) hmono r hfind
        refine ⟨r, ?_, hr.2.1, ?_, ?_, ?_⟩
        · have hdef : getCurrentPhase (a :: t) nowSec =
              some (((a :: t).reverse.find? (phaseQualifies nowSec)).getD a) := rfl
          rw [hdef, hfind]
          rfl
        · exact ((phaseQualifies_iff nowSec r).mp hr.1).1
        · exact ((phaseQualifies_iff nowSec r).mp hr.1).2
        · intro q hql h1 h2
          exact hr.2.2 q hql ((phaseQualifies_iff nowSec q).mpr ⟨h1, h2⟩)
  · intro hnone
    cases phases with
    | nil => simp [getCurrentPhase]
    | cons a t =>
      have hfind : (a :: t).reverse.find? (phaseQualifies nowSec) = none := by
        apply find?_reverse_eq_none
        intro x hx
        have := hnone x hx
        rw [← phaseQualifies_iff nowSec x] at this
        simpa using this
      have hdef : getCurrentPhase (a :: t) nowSec =
          some (((a :: t).reverse.find? (phaseQualifies nowSec)).getD a) := rfl
      rw [hdef, hfind]
      rfl

/-- Witness for C1 at a concrete phase list: begin times 10 and 20 with
server time 15 select the phase that began at 10; with server time 5 the
first listed phase wins. -/
theorem getCurrentPhase_correct_witness :
    (∃ p ∈ [Phase.mk 1 10 0 0 0, Phase.mk 4 20 0 0 0],
        0 < p.begin_time ∧ p.begin_time ≤ 15) ∧
    (∃ p, getCurrentPhase [Phase.mk 1 10 0 0 0, Phase.mk 4 20 0 0 0] 15 = some p ∧
        p ∈ [Phase.mk 1 10 0 0 0, Phase.mk 4 20 0 0 0] ∧
        0 < p.begin_time ∧ p.begin_time ≤ 15 ∧
        ∀ q ∈ [Phase.mk 1 10 0 0 0, Phase.mk 4 20 0 0 0],
          0 < q.begin_time → q.begin_time ≤ 15 → q.begin_time ≤ p.begin_time) := by
  constructor
  · exact ⟨Phase.mk 1 10 0 0 0, by decide⟩
  · exact (getCurrentPhase_correct [Phase.mk 1 10 0 0 0, Phase.mk 4 20 0 0 0] 15
      (by decide)).1 ⟨Phase.mk 1 10 0 0 0, by decide⟩

/-- Result of getRemainingToMatureInfo: remaining seconds to maturity and
whether the value is known. -/
structure RemainInfo where
  remainingSec : Int
  known : Bool
deriving Repr, DecidableEq

/-- One iteration of the scan of getRemainingToMatureInfo over the phases,
updating the pair (earliestBegin, matureBegin); 0 encodes "none seen yet". -/
def remainScanStep (s : Nat × Nat) (p : Phase) : Nat × Nat :=
  (if 0 < p.begin_time ∧ (s.1 = 0 ∨ p.begin_time < s.1) then p.begin_time else s.1,
   if p.phase = PlantPhase.MATURE ∧ 0 < p.begin_time ∧ (s.2 = 0 ∨ p.begin_time < s.2)
     then p.begin_time else s.2)

/-- getRemainingToMatureInfo: prefer the earliest non-zero MATURE begin time
minus now; otherwise use total grow time minus elapsed time since the earliest
non-zero begin time; otherwise the remaining time is unknown.  All results are
floored at zero. -/
def getRemainingToMatureInfo (phases : List Phase) (nowSec : Nat)
    (totalGrowTime : Nat) : RemainInfo :=
  if phases.isEmpty then ⟨0, false⟩
  else
    let s := phases.foldl remainScanStep (0, 0)
    if 0 < s.2 then ⟨max 0 ((s.2 : Int) - (nowSec : Int)), true⟩
    else if 0 < totalGrowTime ∧ 0 < s.1 then
      ⟨max 0 ((totalGrowTime : Int) - max 0 ((nowSec : Int) - (s.1 : Int))), true⟩
    else ⟨0, false⟩

/-- Minimum of two naturals where 0 encodes "absent". -/
def minZ (a b : Nat) : Nat := if a = 0 then b else if b = 0 then a else min a b

/-- The non-zero begin times of a phase list, in order. -/
def posBegins (phases : List Phase) : List Nat :=
  (phases.filter (fun p => decide (0 < p.begin_time))).map Phase.begin_time

/-- The non-zero begin times of the MATURE-tagged phases, in order. -/
def posMatureBegins (phases : List Phase) : List Nat :=
  (phases.filter (fun p =>
    decide (p.phase = PlantPhase.MATURE) && decide (0 < p.begin_time))).map Phase.begin_time

theorem remainScanStep_fst (s : Nat × Nat) (p : Phase) :
    (remainScanStep s p).1 =
      if 0 < p.begin_time then minZ s.1 p.begin_time else s.1 := by
  simp only [remainScanStep, minZ]
  split_ifs <;> omega

theorem remainScanStep_snd (s : Nat × Nat) (p : Phase) :
    (remainScanStep s p).2 =
      if p.phase = PlantPhase.MATURE ∧ 0 < p.begin_time
        then minZ s.2 p.begin_time else s.2 := by
  simp only [remainScanStep, minZ]
  split_ifs <;> omega

theorem remainScan_eq_minZ (phases : List Phase) :
    ∀ eb mb : Nat, phases.foldl remainScanStep (eb, mb) =
      ((posBegins phases).foldl minZ eb, (posMatureBegins phases).foldl minZ mb) := by
  induction phases with
  | nil => intro eb mb; simp [posBegins, posMatureBegins]
  | cons p t ih =>
    intro eb mb
    have hstep : remainScanStep (eb, mb) p =
        ((if 0 < p.begin_time then minZ eb p.begin_time else eb),
         (if p.phase = PlantPhase.MATURE ∧ 0 < p.begin_time
            then minZ mb p.begin_time else mb)) := by
      have h1 := remainScanStep_fst (eb, mb) p
      have h2 := remainScanStep_snd (eb, mb) p
      exact Prod.ext h1 h2
    have hpb : posBegins (p :: t) =
        (if 0 < p.begin_time then [p.begin_time] else []) ++ posBegins t := by
      by_cases hb : 0 < p.begin_time <;> simp [posBegins, List.filter, hb]
    have hpmb : posMatureBegins (p :: t) =
        (if p.phase = PlantPhase.MATURE ∧ 0 < p.begin_time
          then [p.begin_time] else []) ++ posMatureBegins t := by
      by_cases hm : p.phase = PlantPhase.MATURE
      · by_cases hb : 0 < p.begin_time <;>
          simp [posMatureBegins, List.filter, hm, hb]
      · simp [posMatureBegins, List.filter, hm]
    rw [List.foldl_cons, hstep, ih, hpb, hpmb]
    by_cases hb : 0 < p.begin_time <;>
      by_cases hm : p.phase = PlantPhase.MATURE <;>
        simp [hb, hm]

theorem foldl_minZ_cases (l : List Nat) :
    ∀ a : Nat, l.foldl minZ a = a ∨ l.foldl minZ a ∈ l := by
  induction l with
  | nil => intro a; left; rfl
  | cons y t ih =>
    intro a
    rw [List.foldl_cons]
    rcases ih (minZ a y) with h | h
    · rw [h]
      unfold minZ
      split_ifs
      · right; exact List.mem_cons_self y t
      · left; rfl
      · rcases Nat.le_total a y with hle | hle
        · left; rw [min_eq_left hle]
        · right; rw [min_eq_right hle]; exact List.mem_cons_self y t
    · right; exact List.mem_cons_of_mem y h

theorem foldl_minZ_le (l : List Nat) :
    ∀ a : Nat, 0 < a → (∀ x ∈ l, 0 < x) →
      l.foldl minZ a ≤ a ∧ ∀ x ∈ l, l.foldl minZ a ≤ x := by
  induction l with
  | nil => intro a _ _; exact ⟨le_refl a, by simp⟩
  | cons y t ih =>
    intro a ha hpos
    have hy : 0 < y := hpos y (List.mem_cons_self y t)
    have hmz : minZ a y = min a y := by
      unfold minZ; split_ifs <;> omega
    have h := ih (minZ a y) (by rw [hmz]; exact lt_min ha hy)
      (fun x hx => hpos x (List.mem_cons_of_mem y hx))
    rw [List.foldl_cons]
    refine ⟨le_trans h.1 (by rw [hmz]; exact min_le_left a y), ?_⟩
    intro x hx
    rcases List.mem_cons.mp hx with h1 | h2
    · subst h1; exact le_trans h.1 (by rw [hmz]; exact min_le_right a x)
    · exact h.2 x h2

theorem foldl_minZ_zero_spec (l : List Nat) (hpos : ∀ x ∈ l, 0 < x) (hne : l ≠ []) :
    l.foldl minZ 0 ∈ l ∧ (∀ x ∈ l, l.foldl minZ 0 ≤ x) ∧ 0 < l.foldl minZ 0 := by
  cases l with
  | nil => exact absurd rfl hne
  | cons y t =>
    have hy : 0 < y := hpos y (List.mem_cons_self y t)
    have hz : minZ 0 y = y := by unfold minZ; simp
    have hposT : ∀ x ∈ t, 0 < x := fun x hx => hpos x (List.mem_cons_of_mem y hx)
    have hle := foldl_minZ_le t y hy hposT
    rw [List.foldl_cons, hz]
    refine ⟨?_, ?_, ?_⟩
    · rcases foldl_minZ_cases t y with h | h
      · rw [h]; exact List.mem_cons_self y t
      · exact List.mem_cons_of_mem y h
    · intro x hx
      rcases List.mem_cons.mp hx with h1 | h2
      · subst h1; exact hle.1
      · exact hle.2 x h2
    · rcases foldl_minZ_cases t y with h | h
      · rw [h]; exact hy
      · exact hposT _ h

theorem posBegins_pos (phases : List Phase) : ∀ x ∈ posBegins phases, 0 < x := by
  intro x hx
  simp only [posBegins, List.mem_map, List.mem_filter] at hx
  rcases hx with ⟨p, ⟨_, hp⟩, hpx⟩
  rw [← hpx]
  exact of_decide_eq_true hp

theorem posMatureBegins_pos (phases : List Phase) :
    ∀ x ∈ posMatureBegins phases, 0 < x := by
  intro x hx
  simp only [posMatureBegins, List.mem_map, List.mem_filter, Bool.and_eq_true] at hx
  rcases hx with ⟨p, ⟨_, _, hp⟩, hpx⟩
  rw [← hpx]
  exact of_decide_eq_true hp

theorem posBegins_ne_nil_of_mature (phases : List Phase)
    (h : posMatureBegins phases ≠ []) : phases ≠ [] := by
  intro hn
  subst hn
  simp [posMatureBegins] at h

theorem posBegins_ne_nil_phases (phases : List Phase)
    (h : posBegins phases ≠ []) : phases ≠ [] := by
  intro hn
  subst hn
  simp [posBegins] at h

/-- C3: getRemainingToMatureInfo prefers the earliest non-zero MATURE begin
time minus now whenever one exists; otherwise, when a total grow time and an
earliest non-zero begin time are available, it returns total grow time minus
elapsed time floored at zero; otherwise the value is unknown.  The returned
remaining seconds are always non-negative. -/
theorem getRemainingToMatureInfo_correct (phases : List Phase)
    (nowSec totalGrowTime : Nat) :
    (0 ≤ (getRemainingToMatureInfo phases nowSec totalGrowTime).remainingSec)
    ∧ (posMatureBegins phases ≠ [] →
        ∃ m, m ∈ posMatureBegins phases ∧ (∀ x ∈ posMatureBegins phases, m ≤ x) ∧
          getRemainingToMatureInfo phases nowSec totalGrowTime =
            ⟨max 0 ((m : Int) - (nowSec : Int)), true⟩)
    ∧ (posMatureBegins phases = [] → 0 < totalGrowTime → posBegins phases ≠ [] →
        ∃ e, e ∈ posBegins phases ∧ (∀ x ∈ posBegins phases, e ≤ x) ∧
          getRemainingToMatureInfo phases nowSec totalGrowTime =
            ⟨max 0 ((totalGrowTime : Int) - max 0 ((nowSec : Int) - (e : Int))), true⟩)
    ∧ (posMatureBegins phases = [] → (totalGrowTime = 0 ∨ posBegins phases = []) →
        getRemainingToMatureInfo phases nowSec totalGrowTime = ⟨0, false⟩) := by
  have hfold := remainScan_eq_minZ phases 0 0
  refine ⟨?_, ?_, ?_, ?_⟩
  · simp only [getRemainingToMatureInfo]
    split_ifs <;> simp [le_max_left]
  · intro hne
    have hphne : phases ≠ [] := posBegins_ne_nil_of_mature phases hne
    have hspec := foldl_minZ_zero_spec (posMatureBegins phases)
      (posMatureBegins_pos phases) hne
    refine ⟨(posMatureBegins phases).foldl minZ 0, hspec.1, hspec.2.1, ?_⟩
    unfold getRemainingToMatureInfo
    rw [if_neg (by simpa using hphne)]
    simp only [hfold]
    rw [if_pos hspec.2.2]
  · intro hmat htot hne
    have hphne : phases ≠ [] := posBegins_ne_nil_phases phases hne
    have hspec := foldl_minZ_zero_spec (posBegins phases) (posBegins_pos phases) hne
    refine ⟨(posBegins phases).foldl minZ 0, hspec.1, hspec.2.1, ?_⟩
    unfold getRemainingToMatureInfo
    rw [if_neg (by simpa using hphne)]
    simp only [hfold]
    rw [if_neg (by simp [hmat, minZ]), if_pos ⟨htot, hspec.2.2⟩]
  · intro hmat hcase
    unfold getRemainingToMatureInfo
    by_cases hph : phases = []
    · simp [hph]
    rw [if_neg (by simpa using hph)]
    simp only [hfold]
    rw [if_neg (by simp [hmat, minZ])]
    rcases hcase with h | h
    · rw [if_neg (by simp [h])]
    · rw [if_neg (by simp [h, minZ])]

/-- Witness for C3 at a concrete plant: phases beginning at 100 and a MATURE
phase beginning at 200, at server time 150 with 300s total grow time, give a
known remaining time of 50 seconds. -/
theorem getRemainingToMatureInfo_correct_witness :
    posMatureBegins [Phase.mk 1 100 0 0 0, Phase.mk 4 200 0 0 0] ≠ [] ∧
    (∃ m, m ∈ posMatureBegins [Phase.mk 1 100 0 0 0, Phase.mk 4 200 0 0 0] ∧
      (∀ x ∈ posMatureBegins [Phase.mk 1 100 0 0 0, Phase.mk 4 200 0 0 0], m ≤ x) ∧
      getRemainingToMatureInfo [Phase.mk 1 100 0 0 0, Phase.mk 4 200 0 0 0] 150 300 =
        ⟨max 0 ((m : Int) - (150 : Int)), true⟩) := by
  constructor
  · decide
  · exact (getRemainingToMatureInfo_correct
      [Phase.mk 1 100 0 0 0, Phase.mk 4 200 0 0 0] 150 300).2.1 (by decide)

/-- A plant instance occupying a plot. -/
structure Plant where
  id : Nat
  phases : List Phase
  dry_num : Nat
  weed_owners : List Nat
  insect_owners : List Nat
deriving Repr, DecidableEq

/-- A plot of land. -/
structure Land where
  id : Nat
  unlocked : Bool
  plant : Option Plant
deriving Repr, DecidableEq

/-- The result record of analyzeLands (display-only fields omitted). -/
structure FarmAnalysis where
  harvestable : List Nat
  needWater : List Nat
  needWeed : List Nat
  needBug : List Nat
  growing : List Nat
  empty : List Nat
  dead : List Nat
  minRemainingSec : Option Int
  serverTimeSec : Nat
  unlockedCount : Nat
deriving Repr, DecidableEq

/-- The initial result record of analyzeLands. -/
def initFarmAnalysis (nowSec : Nat) : FarmAnalysis :=
  ⟨[], [], [], [], [], [], [], none, nowSec, 0⟩

/-- The minRemainingSec update performed for a growing plot. -/
def updateMinRemaining (m : Option Int) (info : RemainInfo) : Option Int :=
  if info.known then
    match m with
    | none => some info.remainingSec
    | some v => if info.remainingSec < v then some info.remainingSec else some v
  else m

/-- The loop body of analyzeLands for a single plot, updating the
accumulated result record.  The configuration lookup getPlantGrowTime is
abstracted as the function growTimeOf. -/
def analyzeLandStep (nowSec : Nat) (growTimeOf : Nat → Nat) (acc : FarmAnalysis)
    (land : Land) : FarmAnalysis :=
  if land.unlocked = false then acc
  else
    let acc1 := { acc with unlockedCount := acc.unlockedCount + 1 }
    match land.plant with
    | none => { acc1 with empty := acc1.empty ++ [land.id] }
    | some plant =>
      if plant.phases.isEmpty then { acc1 with empty := acc1.empty ++ [land.id] }
      else
        match getCurrentPhase plant.phases nowSec with
        | none => { acc1 with empty := acc1.empty ++ [land.id] }
        | some currentPhase =>
          if currentPhase.phase = PlantPhase.DEAD then
            { acc1 with dead := acc1.dead ++ [land.id] }
          else if currentPhase.phase = PlantPhase.MATURE then
            { acc1 with harvestable := acc1.harvestable ++ [land.id] }
          else
            let acc2 :=
              if 0 < plant.dry_num ∨
                  (0 < currentPhase.dry_time ∧ currentPhase.dry_time ≤ nowSec)
                then { acc1 with needWater := acc1.needWater ++ [land.id] } else acc1
            let acc3 :=
              if plant.weed_owners ≠ [] ∨
                  (0 < currentPhase.weeds_time ∧ currentPhase.weeds_time ≤ nowSec)
                then { acc2 with needWeed := acc2.needWeed ++ [land.id] } else acc2
            let acc4 :=
              if plant.insect_owners ≠ [] ∨
                  (0 < currentPhase.insect_time ∧ currentPhase.insect_time ≤ nowSec)
                then { acc3 with needBug := acc3.needBug ++ [land.id] } else acc3
            let acc5 := { acc4 with growing := acc4.growing ++ [land.id] }
            let remainInfo :=
              getRemainingToMatureInfo plant.phases nowSec (growTimeOf plant.id)
            { acc5 with
              minRemainingSec := updateMinRemaining acc5.minRemainingSec remainInfo }

/-- analyzeLands: fold the per-plot loop body over the land list. -/
def analyzeLands (lands : List Land) (nowSec : Nat) (growTimeOf : Nat → Nat) :
    FarmAnalysis :=
  lands.foldl (analyzeLandStep nowSec growTimeOf) (initFarmAnalysis nowSec)

/-- The category a plot falls into, following the branch order of analyzeLands. -/
inductive LandCat where
  | locked
  | emptyCat
  | deadCat
  | matureCat
  | growingCat
deriving Repr, DecidableEq

/-- Classification of one plot, mirroring the branch structure of
the loop body of analyzeLands. -/
def classifyLand (nowSec : Nat) (land : Land) : LandCat :=
  if land.unlocked = false then LandCat.locked
  else
    match land.plant with
    | none => LandCat.emptyCat
    | some plant =>
      if plant.phases.isEmpty then LandCat.emptyCat
      else
        match getCurrentPhase plant.phases nowSec with
        | none => LandCat.emptyCat
        | some currentPhase =>
          if currentPhase.phase = PlantPhase.DEAD then LandCat.deadCat
          else if currentPhase.phase = PlantPhase.MATURE then LandCat.matureCat
          else LandCat.growingCat

/-- The needs-water condition of analyzeLands, as a predicate on one plot. -/
def landNeedsWater (nowSec : Nat) (land : Land) : Bool :=
  decide (classifyLand nowSec land = LandCat.growingCat) &&
  match land.plant with
  | none => false
  | some plant =>
    match getCurrentPhase plant.phases nowSec with
    | none => false
    | some cp =>
      decide (0 < plant.dry_num ∨ (0 < cp.dry_time ∧ cp.dry_time ≤ nowSec))

/-- The needs-weed condition of analyzeLands, as a predicate on one plot. -/
def landNeedsWeed (nowSec : Nat) (land : Land) : Bool :=
  decide (classifyLand nowSec land = LandCat.growingCat) &&
  match land.plant with
  | none => false
  | some plant =>
    match getCurrentPhase plant.phases nowSec with
    | none => false
    | some cp =>
      decide (plant.weed_owners ≠ [] ∨ (0 < cp.weeds_time ∧ cp.weeds_time ≤ nowSec))

/-- The needs-bug condition of analyzeLands, as a predicate on one plot. -/
def landNeedsBug (nowSec : Nat) (land : Land) : Bool :=
  decide (classifyLand nowSec land = LandCat.growingCat) &&
  match land.plant with
  | none => false
  | some plant =>
    match getCurrentPhase plant.phases nowSec with
    | none => false
    | some cp =>
      decide (plant.insect_owners ≠ [] ∨ (0 < cp.insect_time ∧ cp.insect_time ≤ nowSec))

theorem classifyLand_growing_of (nowSec : Nat) (land : Land) (plant : Plant)
    (cp : Phase) (hu : ¬land.unlocked = false) (hp : land.plant = some plant)
    (hph : ¬plant.phases.isEmpty = true)
    (hcp : getCurrentPhase plant.phases nowSec = some cp)
    (hd : ¬cp.phase = PlantPhase.DEAD) (hm : ¬cp.phase = PlantPhase.MATURE) :
    classifyLand nowSec land = LandCat.growingCat := by
  simp [classifyLand, hu, hp, hph, hcp, hd, hm]

theorem landNeedsWater_eq (nowSec : Nat) (land : Land) (plant : Plant) (cp : Phase)
    (hp : land.plant = some plant)
    (hcp : getCurrentPhase plant.phases nowSec = some cp)
    (hclass : classifyLand nowSec land = LandCat.growingCat) :
    landNeedsWater nowSec land =
      decide (0 < plant.dry_num ∨ (0 < cp.dry_time ∧ cp.dry_time ≤ nowSec)) := by
  simp [landNeedsWater, hp, hcp, hclass]

theorem landNeedsWeed_eq (nowSec : Nat) (land : Land) (plant : Plant) (cp : Phase)
    (hp : land.plant = some plant)
    (hcp : getCurrentPhase plant.phases nowSec = some cp)
    (hclass : classifyLand nowSec land = LandCat.growingCat) :
    landNeedsWeed nowSec land =
      decide (plant.weed_owners ≠ [] ∨ (0 < cp.weeds_time ∧ cp.weeds_time ≤ nowSec)) := by
  simp [landNeedsWeed, hp, hcp, hclass]

theorem landNeedsBug_eq (nowSec : Nat) (land : Land) (plant : Plant) (cp : Phase)
    (hp : land.plant = some plant)
    (hcp : getCurrentPhase plant.phases nowSec = some cp)
    (hclass : classifyLand nowSec land = LandCat.growingCat) :
    landNeedsBug nowSec land =
      decide (plant.insect_owners ≠ [] ∨ (0 < cp.insect_time ∧ cp.insect_time ≤ nowSec)) := by
  simp [landNeedsBug, hp, hcp, hclass]

theorem analyzeLandStep_growing_case (nowSec : Nat) (g : Nat → Nat)
    (acc : FarmAnalysis) (land : Land) (plant : Plant) (cp : Phase)
    (hu : ¬land.unlocked = false) (hp : land.plant = some plant)
    (hph : ¬plant.phases.isEmpty = true)
    (hcp : getCurrentPhase plant.phases nowSec = some cp)
    (hd : ¬cp.phase = PlantPhase.DEAD) (hm : ¬cp.phase = PlantPhase.MATURE) :
    analyzeLandStep nowSec g acc land =
      { acc with
        unlockedCount := acc.unlockedCount + 1
        needWater := acc.needWater ++
          (if 0 < plant.dry_num ∨ (0 < cp.dry_time ∧ cp.dry_time ≤ nowSec)
            then [land.id] else [])
        needWeed := acc.needWeed ++
          (if plant.weed_owners ≠ [] ∨ (0 < cp.weeds_time ∧ cp.weeds_time ≤ nowSec)
            then [land.id] else [])
        needBug := acc.needBug ++
          (if plant.insect_owners ≠ [] ∨ (0 < cp.insect_time ∧ cp.insect_time ≤ nowSec)
            then [land.id] else [])
        growing := acc.growing ++ [land.id]
        minRemainingSec := updateMinRemaining acc.minRemainingSec
          (getRemainingToMatureInfo plant.phases nowSec (g plant.id)) } := by
  simp only [analyzeLandStep, hp, hcp]
  rw [if_neg hu, if_neg hph, if_neg hd, if_neg hm]
  split_ifs <;> simp

theorem analyzeLandStep_empty (nowSec : Nat) (g : Nat → Nat) (acc : FarmAnalysis)
    (land : Land) :
    (analyzeLandStep nowSec g acc land).empty =
      acc.empty ++
        (if classifyLand nowSec land = LandCat.emptyCat then [land.id] else []) := by
  by_cases hu : land.unlocked = false
  · simp [analyzeLandStep, classifyLand, hu]
  · cases hp : land.plant with
    | none => simp [analyzeLandStep, classifyLand, hu, hp]
    | some plant =>
      by_cases hph : plant.phases.isEmpty
      · simp [analyzeLandStep, classifyLand, hu, hp, hph]
      · cases hcp : getCurrentPhase plant.phases nowSec with
        | none => simp [analyzeLandStep, classifyLand, hu, hp, hph, hcp]
        | some cp =>
          by_cases hd : cp.phase = PlantPhase.DEAD
          · simp [analyzeLandStep, classifyLand, hu, hp, hph, hcp, hd,
              PlantPhase.MATURE, PlantPhase.DEAD]
          · by_cases hm : cp.phase = PlantPhase.MATURE
            · simp [analyzeLandStep, classifyLand, hu, hp, hph, hcp, hd, hm,
                PlantPhase.MATURE, PlantPhase.DEAD]
            · rw [analyzeLandStep_growing_case nowSec g acc land plant cp hu hp hph hcp hd hm,
                classifyLand_growing_of nowSec land plant cp hu hp hph hcp hd hm]
              simp

theorem analyzeLandStep_dead (nowSec : Nat) (g : Nat → Nat) (acc : FarmAnalysis)
    (land : Land) :
    (analyzeLandStep nowSec g acc land).dead =
      acc.dead ++
        (if classifyLand nowSec land = LandCat.deadCat then [land.id] else []) := by
  by_cases hu : land.unlocked = false
  · simp [analyzeLandStep, classifyLand, hu]
  · cases hp : land.plant with
    | none => simp [analyzeLandStep, classifyLand, hu, hp]
    | some plant =>
      by_cases hph : plant.phases.isEmpty
      · simp [analyzeLandStep, classifyLand, hu, hp, hph]
      · cases hcp : getCurrentPhase plant.phases nowSec with
        | none => simp [analyzeLandStep, classifyLand, hu, hp, hph, hcp]
        | some cp =>
          by_cases hd : cp.phase = PlantPhase.DEAD
          · simp [analyzeLandStep, classifyLand, hu, hp, hph, hcp, hd,
              PlantPhase.MATURE, PlantPhase.DEAD]
          · by_cases hm : cp.phase = PlantPhase.MATURE
            · simp [analyzeLandStep, classifyLand, hu, hp, hph, hcp, hd, hm,
                PlantPhase.MATURE, PlantPhase.DEAD]
            · rw [analyzeLandStep_growing_case nowSec g acc land plant cp hu hp hph hcp hd hm,
                classifyLand_growing_of nowSec land plant cp hu hp hph hcp hd hm]
              simp

theorem analyzeLandStep_harvestable (nowSec : Nat) (g : Nat → Nat)
    (acc : FarmAnalysis) (land : Land) :
    (analyzeLandStep nowSec g acc land).harvestable =
      acc.harvestable ++
        (if classifyLand nowSec land = LandCat.matureCat then [land.id] else []) := by
  by_cases hu : land.unlocked = false
  · simp [analyzeLandStep, classifyLand, hu]
  · cases hp : land.plant with
    | none => simp [analyzeLandStep, classifyLand, hu, hp]
    | some plant =>
      by_cases hph : plant.phases.isEmpty
      · simp [analyzeLandStep, classifyLand, hu, hp, hph]
      · cases hcp : getCurrentPhase plant.phases nowSec with
        | none => simp [analyzeLandStep, classifyLand, hu, hp, hph, hcp]
        | some cp =>
          by_cases hd : cp.phase = PlantPhase.DEAD
          · simp [analyzeLandStep, classifyLand, hu, hp, hph, hcp, hd,
              PlantPhase.MATURE, PlantPhase.DEAD]
          · by_cases hm : cp.phase = PlantPhase.MATURE
            · simp [analyzeLandStep, classifyLand, hu, hp, hph, hcp, hd, hm,
                PlantPhase.MATURE, PlantPhase.DEAD]
            · rw [analyzeLandStep_growing_case nowSec g acc land plant cp hu hp hph hcp hd hm,
                classifyLand_growing_of nowSec land plant cp hu hp hph hcp hd hm]
              simp

theorem analyzeLandStep_growing (nowSec : Nat) (g : Nat → Nat)
    (acc : FarmAnalysis) (land : Land) :
    (analyzeLandStep nowSec g acc land).growing =
      acc.growing ++
        (if classifyLand nowSec land = LandCat.growingCat then [land.id] else []) := by
  by_cases hu : land.unlocked = false
  · simp [analyzeLandStep, classifyLand, hu]
  · cases hp : land.plant with
    | none => simp [analyzeLandStep, classifyLand, hu, hp]
    | some plant =>
      by_cases hph : plant.phases.isEmpty
      · simp [analyzeLandStep, classifyLand, hu, hp, hph]
      · cases hcp : getCurrentPhase plant.phases nowSec with
        | none => simp [analyzeLandStep, classifyLand, hu, hp, hph, hcp]
        | some cp =>
          by_cases hd : cp.phase = PlantPhase.DEAD
          · simp [analyzeLandStep, classifyLand, hu, hp, hph, hcp, hd,
              PlantPhase.MATURE, PlantPhase.DEAD]
          · by_cases hm : cp.phase = PlantPhase.MATURE
            · simp [analyzeLandStep, classifyLand, hu, hp, hph, hcp, hd, hm,
                PlantPhase.MATURE, PlantPhase.DEAD]
            · rw [analyzeLandStep_growing_case nowSec g acc land plant cp hu hp hph hcp hd hm,
                classifyLand_growing_of nowSec land plant cp hu hp hph hcp hd hm]
              simp

theorem analyzeLandStep_needWater (nowSec : Nat) (g : Nat → Nat)
    (acc : FarmAnalysis) (land : Land) :
    (analyzeLandStep nowSec g acc land).needWater =
      acc.needWater ++
        (if landNeedsWater nowSec land = true then [land.id] else []) := by
  by_cases hu : land.unlocked = false
  · simp [analyzeLandStep, classifyLand, landNeedsWater, hu]
  · cases hp : land.plant with
    | none => simp [analyzeLandStep, classifyLand, landNeedsWater, hu, hp]
    | some plant =>
      by_cases hph : plant.phases.isEmpty
      · simp [analyzeLandStep, classifyLand, landNeedsWater, hu, hp, hph]
      · cases hcp : getCurrentPhase plant.phases nowSec with
        | none => simp [analyzeLandStep, classifyLand, landNeedsWater, hu, hp, hph, hcp]
        | some cp =>
          by_cases hd : cp.phase = PlantPhase.DEAD
          · simp [analyzeLandStep, classifyLand, landNeedsWater, hu, hp, hph, hcp, hd,
              PlantPhase.MATURE, PlantPhase.DEAD]
          · by_cases hm : cp.phase = PlantPhase.MATURE
            · simp [analyzeLandStep, classifyLand, landNeedsWater, hu, hp, hph, hcp,
                hd, hm, PlantPhase.MATURE, PlantPhase.DEAD]
            · rw [analyzeLandStep_growing_case nowSec g acc land plant cp hu hp hph hcp hd hm,
                landNeedsWater_eq nowSec land plant cp hp hcp
                  (classifyLand_growing_of nowSec land plant cp hu hp hph hcp hd hm)]
              simp

theorem analyzeLandStep_needWeed (nowSec : Nat) (g : Nat → Nat)
    (acc : FarmAnalysis) (land : Land) :
    (analyzeLandStep nowSec g acc land).needWeed =
      acc.needWeed ++
        (if landNeedsWeed nowSec land = true then [land.id] else []) := by
  by_cases hu : land.unlocked = false
  · simp [analyzeLandStep, classifyLand, landNeedsWeed, hu]
  · cases hp : land.plant with
    | none => simp [analyzeLandStep, classifyLand, landNeedsWeed, hu, hp]
    | some plant =>
      by_cases hph : plant.phases.isEmpty
      · simp [analyzeLandStep, classifyLand, landNeedsWeed, hu, hp, hph]
      · cases hcp : getCurrentPhase plant.phases nowSec with
        | none => simp [analyzeLandStep, classifyLand, landNeedsWeed, hu, hp, hph, hcp]
        | some cp =>
          by_cases hd : cp.phase = PlantPhase.DEAD
          · simp [analyzeLandStep, classifyLand, landNeedsWeed, hu, hp, hph, hcp, hd,
              PlantPhase.MATURE, PlantPhase.DEAD]
          · by_cases hm : cp.phase = PlantPhase.MATURE
            · simp [analyzeLandStep, classifyLand, landNeedsWeed, hu, hp, hph, hcp,
                hd, hm, PlantPhase.MATURE, PlantPhase.DEAD]
            · rw [analyzeLandStep_growing_case nowSec g acc land plant cp hu hp hph hcp hd hm,
                landNeedsWeed_eq nowSec land plant cp hp hcp
                  (classifyLand_growing_of nowSec land plant cp hu hp hph hcp hd hm)]
              simp

theorem analyzeLandStep_needBug (nowSec : Nat) (g : Nat → Nat)
    (acc : FarmAnalysis) (land : Land) :
    (analyzeLandStep nowSec g acc land).needBug =
      acc.needBug ++
        (if landNeedsBug nowSec land = true then [land.id] else []) := by
  by_cases hu : land.unlocked = false
  · simp [analyzeLandStep, classifyLand, landNeedsBug, hu]
  · cases hp : land.plant with
    | none => simp [analyzeLandStep, classifyLand, landNeedsBug, hu, hp]
    | some plant =>
      by_cases hph : plant.phases.isEmpty
      · simp [analyzeLandStep, classifyLand, landNeedsBug, hu, hp, hph]
      · cases hcp : getCurrentPhase plant.phases nowSec with
        | none => simp [analyzeLandStep, classifyLand, landNeedsBug, hu, hp, hph, hcp]
        | some cp =>
          by_cases hd : cp.phase = PlantPhase.DEAD
          · simp [analyzeLandStep, classifyLand, landNeedsBug, hu, hp, hph, hcp, hd,
              PlantPhase.MATURE, PlantPhase.DEAD]
          · by_cases hm : cp.phase = PlantPhase.MATURE
            · simp [analyzeLandStep, classifyLand, landNeedsBug, hu, hp, hph, hcp,
                hd, hm, PlantPhase.MATURE, PlantPhase.DEAD]
            · rw [analyzeLandStep_growing_case nowSec g acc land plant cp hu hp hph hcp hd hm,
                landNeedsBug_eq nowSec land plant cp hp hcp
                  (classifyLand_growing_of nowSec land plant cp hu hp hph hcp hd hm)]
              simp

theorem analyzeLandStep_unlockedCount (nowSec : Nat) (g : Nat → Nat)
    (acc : FarmAnalysis) (land : Land) :
    (analyzeLandStep nowSec g acc land).unlockedCount =
      acc.unlockedCount + (if land.unlocked = true then 1 else 0) := by
  by_cases hu : land.unlocked = false
  · simp [analyzeLandStep, hu]
  · have hut : land.unlocked = true := by simpa using hu
    cases hp : land.plant with
    | none => simp [analyzeLandStep, hu, hp, hut]
    | some plant =>
      by_cases hph : plant.phases.isEmpty
      · simp [analyzeLandStep, hu, hp, hph, hut]
      · cases hcp : getCurrentPhase plant.phases nowSec with
        | none => simp [analyzeLandStep, hu, hp, hph, hcp, hut]
        | some cp =>
          by_cases hd : cp.phase = PlantPhase.DEAD
          · simp [analyzeLandStep, hu, hp, hph, hcp, hd, hut,
              PlantPhase.MATURE, PlantPhase.DEAD]
          · by_cases hm : cp.phase = PlantPhase.MATURE
            · simp [analyzeLandStep, hu, hp, hph, hcp, hd, hm, hut,
                PlantPhase.MATURE, PlantPhase.DEAD]
            · rw [analyzeLandStep_growing_case nowSec g acc land plant cp hu hp hph hcp hd hm]
              simp [hut]
theorem foldl_analyzeLandStep_empty (nowSec : Nat) (g : Nat → Nat) :
    ∀ (lands : List Land) (acc : FarmAnalysis),
      (lands.foldl (analyzeLandStep nowSec g) acc).empty =
        acc.empty ++ (lands.filter
          (fun l => decide (classifyLand nowSec l = LandCat.emptyCat))).map Land.id := by
  intro lands
  induction lands with
  | nil => intro acc; simp
  | cons l t ih =>
    intro acc
    rw [List.foldl_cons, ih, analyzeLandStep_empty]
    by_cases hc : classifyLand nowSec l = LandCat.emptyCat <;>
      simp [List.filter_cons, hc]

theorem foldl_analyzeLandStep_dead (nowSec : Nat) (g : Nat → Nat) :
    ∀ (lands : List Land) (acc : FarmAnalysis),
      (lands.foldl (analyzeLandStep nowSec g) acc).dead =
        acc.dead ++ (lands.filter
          (fun l => decide (classifyLand nowSec l = LandCat.deadCat))).map Land.id := by
  intro lands
  induction lands with
  | nil => intro acc; simp
  | cons l t ih =>
    intro acc
    rw [List.foldl_cons, ih, analyzeLandStep_dead]
    by_cases hc : classifyLand nowSec l = LandCat.deadCat <;>
      simp [List.filter_cons, hc]

theorem foldl_analyzeLandStep_harvestable (nowSec : Nat) (g : Nat → Nat) :
    ∀ (lands : List Land) (acc : FarmAnalysis),
      (lands.foldl (analyzeLandStep nowSec g) acc).harvestable =
        acc.harvestable ++ (lands.filter
          (fun l => decide (classifyLand nowSec l = LandCat.matureCat))).map Land.id := by
  intro lands
  induction lands with
  | nil => intro acc; simp
  | cons l t ih =>
    intro acc
    rw [List.foldl_cons, ih, analyzeLandStep_harvestable]
    by_cases hc : classifyLand nowSec l = LandCat.matureCat <;>
      simp [List.filter_cons, hc]

theorem foldl_analyzeLandStep_growing (nowSec : Nat) (g : Nat → Nat) :
    ∀ (lands : List Land) (acc : FarmAnalysis),
      (lands.foldl (analyzeLandStep nowSec g) acc).growing =
        acc.growing ++ (lands.filter
          (fun l => decide (classifyLand nowSec l = LandCat.growingCat))).map Land.id := by
  intro lands
  induction lands with
  | nil => intro acc; simp
  | cons l t ih =>
    intro acc
    rw [List.foldl_cons, ih, analyzeLandStep_growing]
    by_cases hc : classifyLand nowSec l = LandCat.growingCat <;>
      simp [List.filter_cons, hc]

theorem foldl_analyzeLandStep_needWater (nowSec : Nat) (g : Nat → Nat) :
    ∀ (lands : List Land) (acc : FarmAnalysis),
      (lands.foldl (analyzeLandStep nowSec g) acc).needWater =
        acc.needWater ++ (lands.filter (landNeedsWater nowSec)).map Land.id := by
  intro lands
  induction lands with
  | nil => intro acc; simp
  | cons l t ih =>
    intro acc
    rw [List.foldl_cons, ih, analyzeLandStep_needWater]
    by_cases hc : landNeedsWater nowSec l = true <;>
      simp [List.filter_cons, hc]

theorem foldl_analyzeLandStep_needWeed (nowSec : Nat) (g : Nat → Nat) :
    ∀ (lands : List Land) (acc : FarmAnalysis),
      (lands.foldl (analyzeLandStep nowSec g) acc).needWeed =
        acc.needWeed ++ (lands.filter (landNeedsWeed nowSec)).map Land.id := by
  intro lands
  induction lands with
  | nil => intro acc; simp
  | cons l t ih =>
    intro acc
    rw [List.foldl_cons, ih, analyzeLandStep_needWeed]
    by_cases hc : landNeedsWeed nowSec l = true <;>
      simp [List.filter_cons, hc]

theorem foldl_analyzeLandStep_needBug (nowSec : Nat) (g : Nat → Nat) :
    ∀ (lands : List Land) (acc : FarmAnalysis),
      (lands.foldl (analyzeLandStep nowSec g) acc).needBug =
        acc.needBug ++ (lands.filter (landNeedsBug nowSec)).map Land.id := by
  intro lands
  induction lands with
  | nil => intro acc; simp
  | cons l t ih =>
    intro acc
    rw [List.foldl_cons, ih, analyzeLandStep_needBug]
    by_cases hc : landNeedsBug nowSec l = true <;>
      simp [List.filter_cons, hc]

theorem foldl_analyzeLandStep_unlockedCount (nowSec : Nat) (g : Nat → Nat) :
    ∀ (lands : List Land) (acc : FarmAnalysis),
      (lands.foldl (analyzeLandStep nowSec g) acc).unlockedCount =
        acc.unlockedCount + (lands.filter (fun l => l.unlocked)).length := by
  intro lands
  induction lands with
  | nil => intro acc; simp
  | cons l t ih =>
    intro acc
    rw [List.foldl_cons, ih, analyzeLandStep_unlockedCount]
    by_cases hc : l.unlocked = true
    · simp [List.filter_cons, hc]
      omega
    · simp [List.filter_cons, hc]

theorem analyzeLands_empty_eq (lands : List Land) (nowSec : Nat) (g : Nat → Nat) :
    (analyzeLands lands nowSec g).empty =
      (lands.filter
        (fun l => decide (classifyLand nowSec l = LandCat.emptyCat))).map Land.id := by
  have h := foldl_analyzeLandStep_empty nowSec g lands (initFarmAnalysis nowSec)
  simpa [analyzeLands, initFarmAnalysis] using h

theorem analyzeLands_dead_eq (lands : List Land) (nowSec : Nat) (g : Nat → Nat) :
    (analyzeLands lands nowSec g).dead =
      (lands.filter
        (fun l => decide (classifyLand nowSec l = LandCat.deadCat))).map Land.id := by
  have h := foldl_analyzeLandStep_dead nowSec g lands (initFarmAnalysis nowSec)
  simpa [analyzeLands, initFarmAnalysis] using h

theorem analyzeLands_harvestable_eq (lands : List Land) (nowSec : Nat) (g : Nat → Nat) :
    (analyzeLands lands nowSec g).harvestable =
      (lands.filter
        (fun l => decide (classifyLand nowSec l = LandCat.matureCat))).map Land.id := by
  have h := foldl_analyzeLandStep_harvestable nowSec g lands (initFarmAnalysis nowSec)
  simpa [analyzeLands, initFarmAnalysis] using h

theorem analyzeLands_growing_eq (lands : List Land) (nowSec : Nat) (g : Nat → Nat) :
    (analyzeLands lands nowSec g).growing =
      (lands.filter
        (fun l => decide (classifyLand nowSec l = LandCat.growingCat))).map Land.id := by
  have h := foldl_analyzeLandStep_growing nowSec g lands (initFarmAnalysis nowSec)
  simpa [analyzeLands, initFarmAnalysis] using h

theorem analyzeLands_needWater_eq (lands : List Land) (nowSec : Nat) (g : Nat → Nat) :
    (analyzeLands lands nowSec g).needWater =
      (lands.filter (landNeedsWater nowSec)).map Land.id := by
  have h := foldl_analyzeLandStep_needWater nowSec g lands (initFarmAnalysis nowSec)
  simpa [analyzeLands, initFarmAnalysis] using h

theorem analyzeLands_needWeed_eq (lands : List Land) (nowSec : Nat) (g : Nat → Nat) :
    (analyzeLands lands nowSec g).needWeed =
      (lands.filter (landNeedsWeed nowSec)).map Land.id := by
  have h := foldl_analyzeLandStep_needWeed nowSec g lands (initFarmAnalysis nowSec)
  simpa [analyzeLands, initFarmAnalysis] using h

theorem analyzeLands_needBug_eq (lands : List Land) (nowSec : Nat) (g : Nat → Nat) :
    (analyzeLands lands nowSec g).needBug =
      (lands.filter (landNeedsBug nowSec)).map Land.id := by
  have h := foldl_analyzeLandStep_needBug nowSec g lands (initFarmAnalysis nowSec)
  simpa [analyzeLands, initFarmAnalysis] using h

theorem analyzeLands_unlockedCount_eq (lands : List Land) (nowSec : Nat) (g : Nat → Nat) :
    (analyzeLands lands nowSec g).unlockedCount =
      (lands.filter (fun l => l.unlocked)).length := by
  have h := foldl_analyzeLandStep_unlockedCount nowSec g lands (initFarmAnalysis nowSec)
  simpa [analyzeLands, initFarmAnalysis] using h

theorem classifyLand_of_locked (nowSec : Nat) (land : Land)
    (hu : land.unlocked = false) :
    classifyLand nowSec land = LandCat.locked := by
  simp [classifyLand, hu]

theorem classifyLand_ne_locked (nowSec : Nat) (land : Land)
    (hu : land.unlocked = true) :
    ¬classifyLand nowSec land = LandCat.locked := by
  unfold classifyLand
  rw [if_neg (by simp [hu])]
  cases hp : land.plant with
  | none => simp
  | some plant =>
    cases hcp : getCurrentPhase plant.phases nowSec with
    | none => simp [hcp]
    | some cp =>
      simp only [hcp]
      split_ifs <;> simp

theorem classify_partition_count (nowSec : Nat) (lands : List Land) :
    (lands.filter
        (fun l => decide (classifyLand nowSec l = LandCat.emptyCat))).length
      + (lands.filter
        (fun l => decide (classifyLand nowSec l = LandCat.deadCat))).length
      + (lands.filter
        (fun l => decide (classifyLand nowSec l = LandCat.matureCat))).length
      + (lands.filter
        (fun l => decide (classifyLand nowSec l = LandCat.growingCat))).length
      = (lands.filter (fun l => l.unlocked)).length := by
  induction lands with
  | nil => simp
  | cons l t ih =>
    by_cases hu : l.unlocked = true
    · have hnl := classifyLand_ne_locked nowSec l hu
      cases h : classifyLand nowSec l with
      | locked => exact absurd h hnl
      | emptyCat => simp [List.filter_cons, h, hu]; omega
      | deadCat => simp [List.filter_cons, h, hu]; omega
      | matureCat => simp [List.filter_cons, h, hu]; omega
      | growingCat => simp [List.filter_cons, h, hu]; omega
    · have hu2 : l.unlocked = false := by simpa using hu
      have h := classifyLand_of_locked nowSec l hu2
      simp [List.filter_cons, h, hu2]
      omega

theorem filterMapId_disjoint (lands : List Land)
    (hnodup : (lands.map Land.id).Nodup) (p q : Land → Bool)
    (hpq : ∀ l : Land, ¬(p l = true ∧ q l = true)) :
    List.Disjoint ((lands.filter p).map Land.id) ((lands.filter q).map Land.id) := by
  intro x hxp hxq
  simp only [List.mem_map, List.mem_filter] at hxp hxq
  rcases hxp with ⟨l1, ⟨hl1, hp1⟩, he1⟩
  rcases hxq with ⟨l2, ⟨hl2, hq2⟩, he2⟩
  have heq : l1 = l2 :=
    List.inj_on_of_nodup_map hnodup hl1 hl2 (he1.trans he2.symm)
  subst heq
  exact hpq l1 ⟨hp1, hq2⟩

theorem not_mem_filterMapId (nowSec : Nat) (lands : List Land)
    (hnodup : (lands.map Land.id).Nodup) (l : Land) (hl : l ∈ lands) (c : LandCat)
    (hc : ¬classifyLand nowSec l = c) :
    l.id ∉ (lands.filter
      (fun l2 => decide (classifyLand nowSec l2 = c))).map Land.id := by
  intro hmem
  simp only [List.mem_map, List.mem_filter, decide_eq_true_eq] at hmem
  rcases hmem with ⟨l2, ⟨hl2, hcl2⟩, he⟩
  have heq : l2 = l := List.inj_on_of_nodup_map hnodup hl2 hl he
  subst heq
  exact hc hcl2

/-- C2: analyzeLands partitions the unlocked plots: the four category lists
empty, dead, harvestable, growing are pairwise disjoint, their lengths sum to
the unlocked-plot count, every unlocked plot lands in one of them, and locked
plots appear in none and are not counted. -/
theorem analyzeLands_partition (lands : List Land) (nowSec : Nat) (g : Nat → Nat)
    (hnodup : (lands.map Land.id).Nodup) :
    ((analyzeLands lands nowSec g).unlockedCount
        = (lands.filter (fun l => l.unlocked)).length)
    ∧ ((analyzeLands lands nowSec g).empty.length
        + (analyzeLands lands nowSec g).dead.length
        + (analyzeLands lands nowSec g).harvestable.length
        + (analyzeLands lands nowSec g).growing.length
        = (analyzeLands lands nowSec g).unlockedCount)
    ∧ List.Disjoint (analyzeLands lands nowSec g).empty
        (analyzeLands lands nowSec g).dead
    ∧ List.Disjoint (analyzeLands lands nowSec g).empty
        (analyzeLands lands nowSec g).harvestable
    ∧ List.Disjoint (analyzeLands lands nowSec g).empty
        (analyzeLands lands nowSec g).growing
    ∧ List.Disjoint (analyzeLands lands nowSec g).dead
        (analyzeLands lands nowSec g).harvestable
    ∧ List.Disjoint (analyzeLands lands nowSec g).dead
        (analyzeLands lands nowSec g).growing
    ∧ List.Disjoint (analyzeLands lands nowSec g).harvestable
        (analyzeLands lands nowSec g).growing
    ∧ (∀ l ∈ lands, l.unlocked = false →
        l.id ∉ (analyzeLands lands nowSec g).empty
        ∧ l.id ∉ (analyzeLands lands nowSec g).dead
        ∧ l.id ∉ (analyzeLands lands nowSec g).harvestable
        ∧ l.id ∉ (analyzeLands lands nowSec g).growing)
    ∧ (∀ l ∈ lands, l.unlocked = true →
        l.id ∈ (analyzeLands lands nowSec g).empty
        ∨ l.id ∈ (analyzeLands lands nowSec g).dead
        ∨ l.id ∈ (analyzeLands lands nowSec g).harvestable
        ∨ l.id ∈ (analyzeLands lands nowSec g).growing) := by
  have he := analyzeLands_empty_eq lands nowSec g
  have hd := analyzeLands_dead_eq lands nowSec g
  have hh := analyzeLands_harvestable_eq lands nowSec g
  have hg := analyzeLands_growing_eq lands nowSec g
  have hu := analyzeLands_unlockedCount_eq lands nowSec g
  have hclash : ∀ (c1 c2 : LandCat), c1 ≠ c2 →
      ∀ l : Land, ¬(decide (classifyLand nowSec l = c1) = true
        ∧ decide (classifyLand nowSec l = c2) = true) := by
    intro c1 c2 hne l
    simp only [decide_eq_true_eq]
    rintro ⟨h1, h2⟩
    rw [h1] at h2
    exact hne h2
  refine ⟨hu, ?_, ?_, ?_, ?_, ?_, ?_, ?_, ?_, ?_⟩
  · rw [he, hd, hh, hg, hu]
    simp only [List.length_map]
    exact classify_partition_count nowSec lands
  · rw [he, hd]
    exact filterMapId_disjoint lands hnodup _ _ (hclash _ _ (by decide))
  · rw [he, hh]
    exact filterMapId_disjoint lands hnodup _ _ (hclash _ _ (by decide))
  · rw [he, hg]
    exact filterMapId_disjoint lands hnodup _ _ (hclash _ _ (by decide))
  · rw [hd, hh]
    exact filterMapId_disjoint lands hnodup _ _ (hclash _ _ (by decide))
  · rw [hd, hg]
    exact filterMapId_disjoint lands hnodup _ _ (hclash _ _ (by decide))
  · rw [hh, hg]
    exact filterMapId_disjoint lands hnodup _ _ (hclash _ _ (by decide))
  · intro l hl hul
    have hlk := classifyLand_of_locked nowSec l hul
    refine ⟨?_, ?_, ?_, ?_⟩
    · rw [he]
      exact not_mem_filterMapId nowSec lands hnodup l hl _ (by rw [hlk]; decide)
    · rw [hd]
      exact not_mem_filterMapId nowSec lands hnodup l hl _ (by rw [hlk]; decide)
    · rw [hh]
      exact not_mem_filterMapId nowSec lands hnodup l hl _ (by rw [hlk]; decide)
    · rw [hg]
      exact not_mem_filterMapId nowSec lands hnodup l hl _ (by rw [hlk]; decide)
  · intro l hl hul
    have hnl := classifyLand_ne_locked nowSec l hul
    cases hcl : classifyLand nowSec l with
    | locked => exact absurd hcl hnl
    | emptyCat =>
      left
      rw [he]
      exact List.mem_map.mpr ⟨l, List.mem_filter.mpr ⟨hl, by simp [hcl]⟩, rfl⟩
    | deadCat =>
      right; left
      rw [hd]
      exact List.mem_map.mpr ⟨l, List.mem_filter.mpr ⟨hl, by simp [hcl]⟩, rfl⟩
    | matureCat =>
      right; right; left
      rw [hh]
      exact List.mem_map.mpr ⟨l, List.mem_filter.mpr ⟨hl, by simp [hcl]⟩, rfl⟩
    | growingCat =>
      right; right; right
      rw [hg]
      exact List.mem_map.mpr ⟨l, List.mem_filter.mpr ⟨hl, by simp [hcl]⟩, rfl⟩

/-- Witness for C2 on a farm with one unlocked empty plot, one locked plot
and one growing plot: the category sizes sum to the unlocked count. -/
theorem analyzeLands_partition_witness :
    ([Land.mk 1 true none, Land.mk 2 false none,
      Land.mk 3 true (some (Plant.mk 9 [Phase.mk 1 10 0 0 0] 0 [] []))].map
        Land.id).Nodup ∧
    ((analyzeLands [Land.mk 1 true none, Land.mk 2 false none,
        Land.mk 3 true (some (Plant.mk 9 [Phase.mk 1 10 0 0 0] 0 [] []))] 100
        (fun _ => 0)).empty.length
      + (analyzeLands [Land.mk 1 true none, Land.mk 2 false none,
        Land.mk 3 true (some (Plant.mk 9 [Phase.mk 1 10 0 0 0] 0 [] []))] 100
        (fun _ => 0)).dead.length
      + (analyzeLands [Land.mk 1 true none, Land.mk 2 false none,
        Land.mk 3 true (some (Plant.mk 9 [Phase.mk 1 10 0 0 0] 0 [] []))] 100
        (fun _ => 0)).harvestable.length
      + (analyzeLands [Land.mk 1 true none, Land.mk 2 false none,
        Land.mk 3 true (some (Plant.mk 9 [Phase.mk 1 10 0 0 0] 0 [] []))] 100
        (fun _ => 0)).growing.length
      = (analyzeLands [Land.mk 1 true none, Land.mk 2 false none,
        Land.mk 3 true (some (Plant.mk 9 [Phase.mk 1 10 0 0 0] 0 [] []))] 100
        (fun _ => 0)).unlockedCount) :=
  ⟨by decide,
    (analyzeLands_partition [Land.mk 1 true none, Land.mk 2 false none,
      Land.mk 3 true (some (Plant.mk 9 [Phase.mk 1 10 0 0 0] 0 [] []))] 100
      (fun _ => 0) (by decide)).2.1⟩

theorem classifyLand_growing_elim (nowSec : Nat) (land : Land) (plant : Plant)
    (hp : land.plant = some plant)
    (hclass : classifyLand nowSec land = LandCat.growingCat) :
    ∃ cp, getCurrentPhase plant.phases nowSec = some cp ∧
      ¬cp.phase = PlantPhase.DEAD ∧ ¬cp.phase = PlantPhase.MATURE := by
  unfold classifyLand at hclass
  by_cases hu : land.unlocked = false
  · rw [if_pos hu] at hclass
    cases hclass
  · rw [if_neg hu] at hclass
    simp only [hp] at hclass
    cases hcp : getCurrentPhase plant.phases nowSec with
    | none => simp [hcp] at hclass
    | some cp =>
      simp only [hcp] at hclass
      by_cases hph : plant.phases.isEmpty
      · rw [if_pos hph] at hclass
        cases hclass
      · rw [if_neg hph] at hclass
        by_cases hd : cp.phase = PlantPhase.DEAD
        · rw [if_pos hd] at hclass
          cases hclass
        · rw [if_neg hd] at hclass
          by_cases hm : cp.phase = PlantPhase.MATURE
          · rw [if_pos hm] at hclass
            cases hclass
          · exact ⟨cp, rfl, hd, hm⟩

theorem landNeeds_growing_of_true (nowSec : Nat) (land : Land) :
    (landNeedsWater nowSec land = true → classifyLand nowSec land = LandCat.growingCat)
    ∧ (landNeedsWeed nowSec land = true → classifyLand nowSec land = LandCat.growingCat)
    ∧ (landNeedsBug nowSec land = true → classifyLand nowSec land = LandCat.growingCat) := by
  refine ⟨?_, ?_, ?_⟩ <;>
    · intro h
      simp only [landNeedsWater, landNeedsWeed, landNeedsBug,
        Bool.and_eq_true, decide_eq_true_eq] at h
      exact h.1

/-- C4: affliction flags are set for growing plots only; for a growing plot
with current phase cp, needs-water holds iff the dryness counter is positive
or the dry-time threshold is non-zero and elapsed, and needs-weed (resp.
needs-bug) holds iff the weed-owner (resp. insect-owner) marker set is
non-empty or the corresponding threshold is non-zero and elapsed; in
particular a non-empty owner-marker set forces the flag. -/
theorem analyzeLands_afflictions (lands : List Land) (nowSec : Nat) (g : Nat → Nat)
    (hnodup : (lands.map Land.id).Nodup) :
    (∀ x : Nat, (x ∈ (analyzeLands lands nowSec g).needWater
        ∨ x ∈ (analyzeLands lands nowSec g).needWeed
        ∨ x ∈ (analyzeLands lands nowSec g).needBug) →
      x ∈ (analyzeLands lands nowSec g).growing)
    ∧ (∀ l ∈ lands, ∀ plant, l.plant = some plant →
        ∀ cp, getCurrentPhase plant.phases nowSec = some cp →
        classifyLand nowSec l = LandCat.growingCat →
        (l.id ∈ (analyzeLands lands nowSec g).needWater ↔
          (0 < plant.dry_num ∨ (0 < cp.dry_time ∧ cp.dry_time ≤ nowSec)))
        ∧ (l.id ∈ (analyzeLands lands nowSec g).needWeed ↔
          (plant.weed_owners ≠ [] ∨ (0 < cp.weeds_time ∧ cp.weeds_time ≤ nowSec)))
        ∧ (l.id ∈ (analyzeLands lands nowSec g).needBug ↔
          (plant.insect_owners ≠ [] ∨ (0 < cp.insect_time ∧ cp.insect_time ≤ nowSec))))
    ∧ (∀ l ∈ lands, ∀ plant, l.plant = some plant →
        classifyLand nowSec l = LandCat.growingCat →
        (plant.weed_owners ≠ [] → l.id ∈ (analyzeLands lands nowSec g).needWeed)
        ∧ (plant.insect_owners ≠ [] → l.id ∈ (analyzeLands lands nowSec g).needBug)) := by
  have hwat := analyzeLands_needWater_eq lands nowSec g
  have hwee := analyzeLands_needWeed_eq lands nowSec g
  have hbug := analyzeLands_needBug_eq lands nowSec g
  have hgro := analyzeLands_growing_eq lands nowSec g
  have hmem : ∀ (p : Land → Bool) (x : Nat),
      x ∈ (lands.filter p).map Land.id ↔ ∃ l, l ∈ lands ∧ p l = true ∧ l.id = x := by
    intro p x
    simp [List.mem_map, List.mem_filter, and_assoc]
  have hmemid : ∀ (p : Land → Bool) (l : Land), l ∈ lands →
      (l.id ∈ (lands.filter p).map Land.id ↔ p l = true) := by
    intro p l hl
    rw [hmem]
    constructor
    · rintro ⟨l2, hl2, hp2, he⟩
      have heq : l2 = l := List.inj_on_of_nodup_map hnodup hl2 hl he
      subst heq
      exact hp2
    · intro hp2
      exact ⟨l, hl, hp2, rfl⟩
  refine ⟨?_, ?_, ?_⟩
  · intro x hx
    rw [hgro]
    rw [hwat, hwee, hbug] at hx
    rw [hmem]
    rcases hx with hx | hx | hx <;>
      · rw [hmem] at hx
        rcases hx with ⟨l, hl, hp, he⟩
        refine ⟨l, hl, ?_, he⟩
        have hgrow := landNeeds_growing_of_true nowSec l
        simp only [decide_eq_true_eq]
        first
        | exact hgrow.1 hp
        | exact hgrow.2.1 hp
        | exact hgrow.2.2 hp
  · intro l hl plant hp cp hcp hclass
    refine ⟨?_, ?_, ?_⟩
    · rw [hwat, hmemid _ l hl,
        landNeedsWater_eq nowSec l plant cp hp hcp hclass, decide_eq_true_eq]
    · rw [hwee, hmemid _ l hl,
        landNeedsWeed_eq nowSec l plant cp hp hcp hclass, decide_eq_true_eq]
    · rw [hbug, hmemid _ l hl,
        landNeedsBug_eq nowSec l plant cp hp hcp hclass, decide_eq_true_eq]
  · intro l hl plant hp hclass
    rcases classifyLand_growing_elim nowSec l plant hp hclass with ⟨cp, hcp, _, _⟩
    constructor
    · intro howners
      rw [hwee, hmemid _ l hl,
        landNeedsWeed_eq nowSec l plant cp hp hcp hclass, decide_eq_true_eq]
      exact Or.inl howners
    · intro howners
      rw [hbug, hmemid _ l hl,
        landNeedsBug_eq nowSec l plant cp hp hcp hclass, decide_eq_true_eq]
      exact Or.inl howners

/-- Witness for C4: a growing plot whose plant carries a weed-owner marker is
flagged needs-weed even though its weed-time threshold is zero. -/
theorem analyzeLands_afflictions_witness :
    (([Land.mk 1 true (some (Plant.mk 9 [Phase.mk 1 10 0 0 0] 0 [7] []))].map
        Land.id).Nodup
      ∧ Land.mk 1 true (some (Plant.mk 9 [Phase.mk 1 10 0 0 0] 0 [7] []))
          ∈ [Land.mk 1 true (some (Plant.mk 9 [Phase.mk 1 10 0 0 0] 0 [7] []))]
      ∧ classifyLand 100 (Land.mk 1 true
          (some (Plant.mk 9 [Phase.mk 1 10 0 0 0] 0 [7] []))) = LandCat.growingCat
      ∧ (Plant.mk 9 [Phase.mk 1 10 0 0 0] 0 [7] []).weed_owners ≠ [])
    ∧ (1 : Nat) ∈ (analyzeLands
        [Land.mk 1 true (some (Plant.mk 9 [Phase.mk 1 10 0 0 0] 0 [7] []))] 100
        (fun _ => 0)).needWeed := by
  refine ⟨⟨by decide, by decide, by decide, by decide⟩, ?_⟩
  exact ((analyzeLands_afflictions
      [Land.mk 1 true (some (Plant.mk 9 [Phase.mk 1 10 0 0 0] 0 [7] []))] 100
      (fun _ => 0) (by decide)).2.2
    (Land.mk 1 true (some (Plant.mk 9 [Phase.mk 1 10 0 0 0] 0 [7] [])))
    (by decide) (Plant.mk 9 [Phase.mk 1 10 0 0 0] 0 [7] []) rfl (by decide)).1
    (by decide)

/-- Unfertilized planting rate of the yield model: 18 plots per 2 seconds. -/
def NO_FERT_PLANT_SPEED_PER_SEC : ℚ := 18 / 2

/-- Fertilized planting rate of the yield model: 12 plots per 2 seconds. -/
def NORMAL_FERT_PLANT_SPEED_PER_SEC : ℚ := 12 / 2

/-- Fraction of the grow time removed by normal fertilizer. -/
def FERT_PERCENT : ℚ := 2 / 10

/-- Minimum grow-time reduction of normal fertilizer, in seconds. -/
def FERT_MIN_REDUCE_SEC : ℚ := 30

/-- calcEffectiveGrowTime: the fertilized grow time, reduced by the larger
of 20% of the grow time and 30 seconds, clamped below at 1 second. -/
def calcEffectiveGrowTime (growSec : ℚ) : ℚ :=
  max 1 (growSec - max (growSec * FERT_PERCENT) FERT_MIN_REDUCE_SEC)

/-- A normalized seed-shop row (the fields buildSeedYieldRows consumes). -/
structure SeedRow where
  seedId : Nat
  requiredLevel : Nat
  price : ℚ
  unlocked : Bool
  expHarvest : ℚ
  growTimeSec : ℚ
deriving Repr, DecidableEq

/-- A seed row extended with the two experience-per-hour figures. -/
structure YieldRow where
  seed : SeedRow
  farmExpPerHourNoFert : ℚ
  farmExpPerHourNormalFert : ℚ
deriving Repr, DecidableEq

/-- The per-seed body of the loop of buildSeedYieldRows. -/
def buildYieldRow (landCount : Nat) (seed : SeedRow) : YieldRow :=
  let plantSecondsNoFert : ℚ := landCount / NO_FERT_PLANT_SPEED_PER_SEC
  let plantSecondsNormalFert : ℚ := landCount / NORMAL_FERT_PLANT_SPEED_PER_SEC
  let expPerCycle := seed.expHarvest
  let growTimeNormalFert := calcEffectiveGrowTime seed.growTimeSec
  let cycleSecNoFert := seed.growTimeSec + plantSecondsNoFert
  let cycleSecNormalFert := growTimeNormalFert + plantSecondsNormalFert
  { seed := seed
    farmExpPerHourNoFert :=
      if 0 < cycleSecNoFert then landCount * expPerCycle / cycleSecNoFert * 3600
      else 0
    farmExpPerHourNormalFert :=
      if 0 < cycleSecNormalFert then
        landCount * expPerCycle / cycleSecNormalFert * 3600
      else 0 }

/-- buildSeedYieldRows: clamp the plot count below at 1, skip rows without a
seed id or a positive grow time, and attach both experience-per-hour figures
(the memoization cache is omitted from the embedding). -/
def buildSeedYieldRows (seedShopRows : List SeedRow) (lands : Nat) :
    List YieldRow :=
  let landCount := max 1 lands
  (seedShopRows.filter
    (fun s => decide (s.seedId ≠ 0) && decide (0 < s.growTimeSec))).map
    (buildYieldRow landCount)

/-- The fertilized cycle time exactly as claim C5 words it, without the
1-second clamp that calcEffectiveGrowTime applies; stated only for
comparison against the code. -/
def claimedCycleSecNormalFert (growTimeSec : ℚ) (landCount : Nat) : ℚ :=
  (growTimeSec - max (growTimeSec * FERT_PERCENT) FERT_MIN_REDUCE_SEC)
    + landCount / NORMAL_FERT_PLANT_SPEED_PER_SEC

/-- C5 counterexample: for a seed with a 30-second grow time and 6 plots the
fertilized experience-per-hour of the code differs from the claimed formula: the
code clamps the fertilized grow time at 1 second (cycle 2s, rate 108000/h)
while the claimed formula gives a zero fertilized grow time (cycle 1s, rate
216000/h). -/
theorem buildSeedYieldRows_claim_counterexample :
    (buildSeedYieldRows [SeedRow.mk 1 1 10 true 10 30] 6).map
        (fun r => r.farmExpPerHourNormalFert)
      ≠ [(6 : ℚ) * 10 / claimedCycleSecNormalFert 30 6 * 3600] := by
  norm_num [buildSeedYieldRows, buildYieldRow, calcEffectiveGrowTime,
    claimedCycleSecNormalFert, NORMAL_FERT_PLANT_SPEED_PER_SEC,
    NO_FERT_PLANT_SPEED_PER_SEC, FERT_PERCENT, FERT_MIN_REDUCE_SEC,
    List.filter]

/-- C5 (amended): every row produced by buildSeedYieldRows has a positive
grow time; for n ≥ 1 unlocked plots the unfertilized cycle time is
grow + n/9 seconds, the fertilized cycle time is
max 1 (grow − max(0.2·grow, 30)) + n/6 seconds, and each
experience-per-hour figure equals n · harvest-experience / cycle-time ·
3600. -/
theorem buildSeedYieldRows_formulas (rows : List SeedRow) (lands : Nat)
    (hl : 1 ≤ lands) :
    ∀ r ∈ buildSeedYieldRows rows lands,
      0 < r.seed.growTimeSec
      ∧ r.farmExpPerHourNoFert =
          (lands : ℚ) * r.seed.expHarvest
            / (r.seed.growTimeSec + (lands : ℚ) / 9) * 3600
      ∧ r.farmExpPerHourNormalFert =
          (lands : ℚ) * r.seed.expHarvest
            / (max 1 (r.seed.growTimeSec
                - max (r.seed.growTimeSec * (2 / 10)) 30) + (lands : ℚ) / 6)
            * 3600 := by
  intro r hr
  simp only [buildSeedYieldRows, List.mem_map, List.mem_filter,
    Bool.and_eq_true, decide_eq_true_eq] at hr
  rcases hr with ⟨s, ⟨hs, hsid, hsg⟩, rfl⟩
  have hmax : max 1 lands = lands := Nat.max_eq_right hl
  have hquot : (0 : ℚ) ≤ (lands : ℚ) := Nat.cast_nonneg lands
  have hpos1 : (0 : ℚ) < s.growTimeSec + ((max 1 lands : Nat) : ℚ) / (18 / 2) := by
    rw [hmax]
    have h9 : (0 : ℚ) ≤ (lands : ℚ) / (18 / 2) := by positivity
    linarith
  have hpos2 : (0 : ℚ) <
      calcEffectiveGrowTime s.growTimeSec + ((max 1 lands : Nat) : ℚ) / (12 / 2) := by
    rw [hmax]
    have h6 : (0 : ℚ) ≤ (lands : ℚ) / (12 / 2) := by positivity
    have h1 : (1 : ℚ) ≤ calcEffectiveGrowTime s.growTimeSec := le_max_left _ _
    linarith
  refine ⟨hsg, ?_, ?_⟩
  · simp only [buildYieldRow, NO_FERT_PLANT_SPEED_PER_SEC]
    rw [if_pos hpos1, hmax]
    norm_num
  · simp only [buildYieldRow, NORMAL_FERT_PLANT_SPEED_PER_SEC]
    rw [if_pos hpos2, hmax]
    simp only [calcEffectiveGrowTime, FERT_PERCENT, FERT_MIN_REDUCE_SEC]
    norm_num

/-- Witness for the amended C5: the seed of the example in the claim, a
1200-second grow time over 10 plots; its fertilized effective grow time is
1200 − max(240, 30) = 960 seconds. -/
theorem buildSeedYieldRows_formulas_witness :
    (1 ≤ 10
      ∧ (∀ r ∈ buildSeedYieldRows [SeedRow.mk 2 5 50 true 30 1200] 10,
          0 < r.seed.growTimeSec
          ∧ r.farmExpPerHourNoFert =
              (10 : ℚ) * r.seed.expHarvest
                / (r.seed.growTimeSec + (10 : ℚ) / 9) * 3600
          ∧ r.farmExpPerHourNormalFert =
              (10 : ℚ) * r.seed.expHarvest
                / (max 1 (r.seed.growTimeSec
                    - max (r.seed.growTimeSec * (2 / 10)) 30) + (10 : ℚ) / 6)
                * 3600))
    ∧ calcEffectiveGrowTime 1200 = 960 := by
  refine ⟨⟨by norm_num, ?_⟩, ?_⟩
  · exact buildSeedYieldRows_formulas [SeedRow.mk 2 5 50 true 30 1200] 10
      (by norm_num)
  · norm_num [calcEffectiveGrowTime, FERT_PERCENT, FERT_MIN_REDUCE_SEC]

/-- The cached farm snapshot built from an analysis result. -/
structure FarmSnapshot where
  emptyCount : Nat
  deadCount : Nat
  harvestableCount : Nat
  needWaterCount : Nat
  needWeedCount : Nat
  needBugCount : Nat
  minRemainingSec : Option Int
  serverTimeSec : Nat
  unlockedCount : Nat
deriving Repr, DecidableEq

/-- buildFarmSnapshot: per-category counts plus the timing fields (the
wall-clock updatedAt field is omitted). -/
def buildFarmSnapshot (status : FarmAnalysis) : FarmSnapshot :=
  { emptyCount := status.empty.length
    deadCount := status.dead.length
    harvestableCount := status.harvestable.length
    needWaterCount := status.needWater.length
    needWeedCount := status.needWeed.length
    needBugCount := status.needBug.length
    minRemainingSec := status.minRemainingSec
    serverTimeSec := status.serverTimeSec
    unlockedCount := status.unlockedCount }

/-- shouldCheckFarmNow as a pure function of the mutable scheduler state
(first-check flag, forced flag, cached snapshot) and the server time. -/
def shouldCheckFarmNow (isFirstFarmCheck forceFarmCheck : Bool)
    (lastFarmSnapshot : Option FarmSnapshot) (nowSec : Nat) : Bool :=
  if isFirstFarmCheck then true
  else if forceFarmCheck then true
  else
    match lastFarmSnapshot with
    | none => true
    | some snap =>
      if 0 < snap.emptyCount then true
      else if 0 < snap.deadCount then true
      else if 0 < snap.harvestableCount then true
      else if 0 < snap.needWaterCount then true
      else if 0 < snap.needWeedCount then true
      else if 0 < snap.needBugCount then true
      else
        match snap.minRemainingSec with
        | some minRemaining =>
          if minRemaining - max 0 ((nowSec : Int) - (snap.serverTimeSec : Int)) ≤ 2
            then true
          else false
        | none => false

set_option maxHeartbeats 1000000 in
/-- C6: shouldCheckFarmNow returns true exactly on the first check, on a
forced check, with no cached snapshot, when some category count of the
cached snapshot is positive, or when the cached minimum remaining time
minus the elapsed time since the snapshot drops to at most 2 seconds; in
every other case it returns false. -/
theorem shouldCheckFarmNow_iff (first force : Bool) (snap? : Option FarmSnapshot)
    (nowSec : Nat) :
    shouldCheckFarmNow first force snap? nowSec = true ↔
      (first = true ∨ force = true ∨ snap? = none
        ∨ ∃ snap, snap? = some snap ∧
            (0 < snap.emptyCount ∨ 0 < snap.deadCount ∨ 0 < snap.harvestableCount
              ∨ 0 < snap.needWaterCount ∨ 0 < snap.needWeedCount
              ∨ 0 < snap.needBugCount
              ∨ ∃ m, snap.minRemainingSec = some m ∧
                  m - max 0 ((nowSec : Int) - (snap.serverTimeSec : Int)) ≤ 2)) := by
  cases first with
  | true => simp [shouldCheckFarmNow]
  | false =>
    cases force with
    | true => simp [shouldCheckFarmNow]
    | false =>
      cases snap? with
      | none => simp [shouldCheckFarmNow]
      | some snap =>
        rcases snap with ⟨ec, dc, hvc, wc, wec, bgc, mr, st, uc⟩
        cases mr with
        | none =>
          simp only [shouldCheckFarmNow]
          split_ifs <;> simp_all
        | some m =>
          simp only [shouldCheckFarmNow]
          split_ifs <;> simp_all

/-- fertilize: one remote Fertilize call per land id in sequence; callOk i
says whether the i-th call of the sequence succeeds.  The loop stops at the
first failure (treated as probable fertilizer shortage) and returns the
number of successful calls so far.  (The 50ms pacing sleep has no effect on
the result and is omitted.) -/
def fertilizeFrom (callOk : Nat → Bool) : Nat → List Nat → Nat
  | _, [] => 0
  | i, _ :: rest => if callOk i then fertilizeFrom callOk (i + 1) rest + 1 else 0

/-- Entry point of the fertilize sequence, starting at call index 0. -/
def fertilize (callOk : Nat → Bool) (landIds : List Nat) : Nat :=
  fertilizeFrom callOk 0 landIds

/-- plantSeeds: one remote Plant call per land id in sequence; a failed call
is logged and skipped, and the loop continues with the remaining ids,
returning the number of successful calls. -/
def plantSeedsFrom (callOk : Nat → Bool) : Nat → List Nat → Nat
  | _, [] => 0
  | i, _ :: rest =>
    if callOk i then plantSeedsFrom callOk (i + 1) rest + 1
    else plantSeedsFrom callOk (i + 1) rest

/-- Entry point of the plant sequence, starting at call index 0. -/
def plantSeeds (callOk : Nat → Bool) (seedId : Nat) (landIds : List Nat) : Nat :=
  plantSeedsFrom callOk 0 landIds

theorem fertilizeFrom_spec (callOk : Nat → Bool) :
    ∀ (ids : List Nat) (i k : Nat), k < ids.length →
      (∀ j, j < k → callOk (i + j) = true) → callOk (i + k) = false →
      fertilizeFrom callOk i ids = k := by
  intro ids
  induction ids with
  | nil => intro i k hk; simp at hk
  | cons a rest ih =>
    intro i k hk hbefore hfail
    cases k with
    | zero =>
      have h0 : callOk i = false := by simpa using hfail
      simp [fertilizeFrom, h0]
    | succ k2 =>
      have h0 : callOk i = true := by
        have := hbefore 0 (Nat.succ_pos k2)
        simpa using this
      have hrec : fertilizeFrom callOk (i + 1) rest = k2 := by
        apply ih (i + 1) k2 (by simpa using hk)
        · intro j hj
          have := hbefore (j + 1) (by omega)
          have harith : i + (j + 1) = i + 1 + j := by omega
          rwa [harith] at this
        · have harith : i + (k2 + 1) = i + 1 + k2 := by omega
          rwa [harith] at hfail
      simp [fertilizeFrom, h0, hrec]

theorem plantSeedsFrom_spec (callOk : Nat → Bool) :
    ∀ (ids : List Nat) (i : Nat),
      plantSeedsFrom callOk i ids =
        (List.range ids.length).countP (fun j => callOk (i + j)) := by
  intro ids
  induction ids with
  | nil => intro i; simp [plantSeedsFrom]
  | cons a rest ih =>
    intro i
    have hrange : List.range (rest.length + 1) =
        0 :: (List.range rest.length).map Nat.succ := List.range_succ_eq_map _
    have hfun : ((fun j => callOk (i + j)) ∘ Nat.succ)
        = fun j => callOk (i + 1 + j) := by
      funext j
      simp only [Function.comp]
      congr 1
      omega
    by_cases h0 : callOk i = true
    · simp only [plantSeedsFrom, h0, if_true, List.length_cons, hrange,
        List.countP_cons, List.countP_map, hfun, ih (i + 1)]
      simp [show i + 0 = i from rfl, h0]
    · have h0f : callOk i = false := by simpa using h0
      simp only [plantSeedsFrom, h0f, List.length_cons, hrange,
        List.countP_cons, List.countP_map, hfun, ih (i + 1)]
      simp [show i + 0 = i from rfl, h0f]

/-- C7: when the k-th call (0-based) of a per-plot sequence fails and all
earlier calls succeed, the fertilize sequence stops at the failure and
returns k (no retry, remaining ids skipped), while the plantSeeds sequence
continues past the failure and returns the number of successful calls over
the whole id list. -/
theorem fertilize_plantSeeds_on_failure (callOk : Nat → Bool) (seedId : Nat)
    (landIds : List Nat) (k : Nat) (hk : k < landIds.length)
    (hbefore : ∀ j, j < k → callOk j = true) (hfail : callOk k = false) :
    fertilize callOk landIds = k
    ∧ plantSeeds callOk seedId landIds =
        (List.range landIds.length).countP (fun j => callOk j) := by
  constructor
  · apply fertilizeFrom_spec callOk landIds 0 k hk
    · intro j hj
      simpa using hbefore j hj
    · simpa using hfail
  · rw [plantSeeds, plantSeedsFrom_spec callOk landIds 0]
    congr 1
    funext j
    simp

/-- Witness for C7: three plot ids whose 2nd call fails; fertilize reports
1 success, plantSeeds reports 2. -/
theorem fertilize_plantSeeds_on_failure_witness :
    (1 < 3 ∧ (fun i => decide (i ≠ 1)) 1 = false)
    ∧ fertilize (fun i => decide (i ≠ 1)) [7, 8, 9] = 1
    ∧ plantSeeds (fun i => decide (i ≠ 1)) 5 [7, 8, 9] =
        (List.range 3).countP (fun j => decide (j ≠ 1)) := by
  refine ⟨⟨by decide, by decide⟩, ?_⟩
  have h := fertilize_plantSeeds_on_failure (fun i => decide (i ≠ 1)) 5 [7, 8, 9] 1
    (by decide) (by decide) (by decide)
  simpa using h

/-- The gold-affordability clamp of the purchase step of autoPlantEmptyLands: when
the total seed cost exceeds the current gold, only the affordable prefix of
the plots is kept; with zero affordable quantity the step aborts (none). -/
def autoPlantAffordable (gold price : Nat) (landsToPlant : List Nat) :
    Option (List Nat) :=
  if gold < price * landsToPlant.length then
    let canBuy := gold / price
    if canBuy = 0 then none
    else some (landsToPlant.take canBuy)
  else some landsToPlant

/-- C8: when the total seed cost exceeds the current gold, the number of
plots to plant is clamped to floor(gold / price); when the affordable
quantity is zero the purchase-and-plant sub-step aborts. -/
theorem autoPlantAffordable_clamp (gold price : Nat) (landsToPlant : List Nat)
    (h : gold < price * landsToPlant.length) :
    (gold / price = 0 → autoPlantAffordable gold price landsToPlant = none)
    ∧ (0 < gold / price →
        autoPlantAffordable gold price landsToPlant =
          some (landsToPlant.take (gold / price))
        ∧ (landsToPlant.take (gold / price)).length = gold / price) := by
  have hp : 0 < price := by
    rcases Nat.eq_zero_or_pos price with h0 | h1
    · subst h0; simp at h
    · exact h1
  have hlt : gold / price < landsToPlant.length := by
    rw [Nat.div_lt_iff_lt_mul hp]
    rw [Nat.mul_comm] at h
    exact h
  constructor
  · intro hz
    unfold autoPlantAffordable
    rw [if_pos h, if_pos hz]
  · intro hpos
    constructor
    · unfold autoPlantAffordable
      rw [if_pos h, if_neg (by omega)]
    · rw [List.length_take]
      omega

/-- Witness for C8: 5 gold, seed price 2, four plots to plant: only
floor(5/2) = 2 plots are kept. -/
theorem autoPlantAffordable_clamp_witness :
    (5 < 2 * 4 ∧ 0 < 5 / 2)
    ∧ autoPlantAffordable 5 2 [11, 12, 13, 14] = some [11, 12]
    ∧ ([11, 12, 13, 14].take (5 / 2)).length = 5 / 2 := by
  refine ⟨⟨by decide, by decide⟩, ?_, ?_⟩
  · have h := ((autoPlantAffordable_clamp 5 2 [11, 12, 13, 14] (by decide)).2
      (by decide)).1
    simpa using h
  · exact ((autoPlantAffordable_clamp 5 2 [11, 12, 13, 14] (by decide)).2
      (by decide)).2

/-- The scheduler state around a farm-check cycle: the mutual-exclusion
guard plus the rest of the mutable state, abstracted as σ. -/
structure SchedState (σ : Type) where
  isCheckingFarm : Bool
  inner : σ
deriving Repr, DecidableEq

/-- The guard protocol of checkFarm: skip when a cycle is already in flight or no
user gid is known; otherwise raise the guard, run the cycle body (which
observes the raised guard and whose Bool marks a caught error), and clear
the guard in the finally step regardless of the outcome of the body.  Returns the
final state and whether a cycle body ran. -/
def checkFarm {σ : Type} (gid : Nat) (body : SchedState σ → SchedState σ × Bool)
    (s : SchedState σ) : SchedState σ × Bool :=
  if s.isCheckingFarm = true ∨ gid = 0 then (s, false)
  else
    let running : SchedState σ := ⟨true, s.inner⟩
    let afterBody := (body running).1
    (⟨false, afterBody.inner⟩, true)

/-- C9: invoking checkFarm while a cycle is in flight is a no-op (mutual
exclusion), from an idle state with a known gid the body runs exactly once
and observes the guard raised, and the guard is cleared when the cycle
finishes for every body outcome, error included — so only
Idle → Checking → Idle transitions occur. -/
theorem checkFarm_guard {σ : Type} (gid : Nat)
    (body : SchedState σ → SchedState σ × Bool) (s : SchedState σ) :
    (s.isCheckingFarm = true → checkFarm gid body s = (s, false))
    ∧ (gid = 0 → checkFarm gid body s = (s, false))
    ∧ (s.isCheckingFarm = false → gid ≠ 0 →
        checkFarm gid body s =
          (⟨false, ((body ⟨true, s.inner⟩).1).inner⟩, true))
    ∧ ((checkFarm gid body s).1.isCheckingFarm = false
        ∨ (checkFarm gid body s).1 = s) := by
  refine ⟨?_, ?_, ?_, ?_⟩
  · intro hc
    unfold checkFarm
    rw [if_pos (Or.inl hc)]
  · intro hg
    unfold checkFarm
    rw [if_pos (Or.inr hg)]
  · intro hc hg
    unfold checkFarm
    rw [if_neg (by simp [hc, hg])]
  · unfold checkFarm
    split_ifs with hcond
    · right; rfl
    · left; rfl

/-- Witness for C9: with a unit of abstract inner state, a body that
increments it and reports success runs once from Idle and the guard ends
cleared; the same call from Checking is a no-op. -/
theorem checkFarm_guard_witness :
    ((SchedState.mk false (0 : Nat)).isCheckingFarm = false ∧ (1 : Nat) ≠ 0
      ∧ checkFarm 1
          (fun st => (SchedState.mk st.isCheckingFarm (st.inner + 1), false))
          (SchedState.mk false (0 : Nat))
        = (SchedState.mk false 1, true))
    ∧ checkFarm 1
        (fun st => (SchedState.mk st.isCheckingFarm (st.inner + 1), false))
        (SchedState.mk true (0 : Nat))
      = (SchedState.mk true 0, false) := by
  constructor
  · refine ⟨rfl, by decide, ?_⟩
    exact (checkFarm_guard 1
      (fun st => (SchedState.mk st.isCheckingFarm (st.inner + 1), false))
      (SchedState.mk false (0 : Nat))).2.2.1 rfl (by decide)
  · exact (checkFarm_guard 1
      (fun st => (SchedState.mk st.isCheckingFarm (st.inner + 1), false))
      (SchedState.mk true (0 : Nat))).1 rfl

/-- The state touched by the landsChanged push handler. -/
structure PushState where
  lastPushTime : Nat
  forceFarmCheck : Bool
  isCheckingFarm : Bool
deriving Repr, DecidableEq

/-- onLandsChangedPush: ignore pushes while a cycle is checking, debounce
events less than 500ms after the last accepted push, otherwise record the
push time, set the forced flag and trigger an out-of-band check.  Returns
the new state and whether a check was triggered. -/
def onLandsChangedPush (s : PushState) (now : Nat) : PushState × Bool :=
  if s.isCheckingFarm = true then (s, false)
  else if (now : Int) - (s.lastPushTime : Int) < 500 then (s, false)
  else ({ s with lastPushTime := now, forceFarmCheck := true }, true)

/-- C10: after a push is accepted at time t1, a second push arriving less
than 500ms later is ignored: the handler leaves the state unchanged (the
forced flag is not set a second time) and triggers no second out-of-band
check. -/
theorem onLandsChangedPush_debounce (s : PushState) (t1 t2 : Nat)
    (h1 : (onLandsChangedPush s t1).2 = true)
    (hlt : (t2 : Int) - (t1 : Int) < 500) :
    onLandsChangedPush (onLandsChangedPush s t1).1 t2 =
      ((onLandsChangedPush s t1).1, false) := by
  have hc : ¬s.isCheckingFarm = true := by
    intro hc
    unfold onLandsChangedPush at h1
    rw [if_pos hc] at h1
    simp at h1
  by_cases hd : (t1 : Int) - (s.lastPushTime : Int) < 500
  · exfalso
    unfold onLandsChangedPush at h1
    rw [if_neg hc, if_pos hd] at h1
    simp at h1
  · have hset : (onLandsChangedPush s t1).1 =
        { s with lastPushTime := t1, forceFarmCheck := true } := by
      unfold onLandsChangedPush
      rw [if_neg hc, if_neg hd]
    rw [hset]
    unfold onLandsChangedPush
    rw [if_neg (by simpa using hc), if_pos (by simpa using hlt)]

/-- Witness for C10: a push at t=1000 is accepted; a second push at t=1300
(300ms later) is ignored and leaves the state unchanged. -/
theorem onLandsChangedPush_debounce_witness :
    ((onLandsChangedPush (PushState.mk 0 false false) 1000).2 = true
      ∧ ((1300 : Int) - (1000 : Int) < 500))
    ∧ onLandsChangedPush (onLandsChangedPush (PushState.mk 0 false false) 1000).1
        1300
      = ((onLandsChangedPush (PushState.mk 0 false false) 1000).1, false) := by
  refine ⟨⟨by decide, by decide⟩, ?_⟩
  exact onLandsChangedPush_debounce (PushState.mk 0 false false) 1000 1300
    (by decide) (by decide)

end QQFarm
